import Mathlib

/-!
Verification of the CoinDB domain model (`src/deps/CoinDB/src/Schema.hxx`).

The header defines the HD-keychain tree, multisig account/bin/signing-script
generation, and the transaction state machine of the mSIGNA wallet.  The
definitions below are a shallow embedding of that code: each C++ member
function becomes a Lean function over an explicit state record, byte strings
(`bytes_t` / `secure_bytes_t`) become lists of byte values, and functions that
`throw` become `Except String` computations.  External collaborators (elliptic
curve derivation, hashing, script construction, transaction serialization —
declared in headers outside this tree) are modelled from the specification as
an abstract record of pure deterministic functions, `Ext`.
-/

namespace CoinDB

/-- Byte strings: the embedding of `bytes_t` and `secure_bytes_t` from the
source.  An empty list embeds an empty (cleared / default-constructed)
byte string. -/
abbrev bytes_t := List Nat

/-- Modelled from the spec: the external `Coin::TxIn` value used by the
serialization collaborator — outpoint hash, outpoint index, unlocking script
and sequence number (`TxIn::toCoinClasses`, Schema.hxx 1073-1080). -/
structure CoinTxIn where
  outhash : bytes_t
  outindex : Nat
  scriptSig : bytes_t
  sequence : Nat
deriving DecidableEq, Inhabited

/-- Modelled from the spec: the external `Coin::TxOut` value — amount and
output script (`TxOut::toCoinClasses`, Schema.hxx 1169-1175). -/
structure CoinTxOut where
  value : Nat
  scriptPubKey : bytes_t
deriving DecidableEq, Inhabited

/-- Modelled from the spec: the external `Coin::Transaction` value built by
`Tx::toCoinClasses` (Schema.hxx 1384-1392): version, ordered inputs and
outputs, and lock time. -/
structure CoinTransaction where
  version : Nat
  inputs : List CoinTxIn
  outputs : List CoinTxOut
  lockTime : Nat
deriving DecidableEq, Inhabited

/-- Modelled from the spec: the external collaborators of the core (spec §6).
Every field is a pure, deterministic, total function:

* `masterKey` / `masterChainCode` — `Coin::HDSeed`: master key and master
  chain code derived from entropy;
* `pubOf` — public key corresponding to a private key;
* `fp` — 32-bit fingerprint of a public key (`HDKeychain::fp`);
* `ckdPrivKey` / `ckdPrivChain` — private child key derivation
  (`HDKeychain::getChild` on a private keychain): child private key and child
  chain code from parent private key, parent chain code and child index;
* `ckdPubKey` / `ckdPubChain` — the same for public derivation;
* `sha256`, `ripemd160`, `sha256d` — the hash primitives (`sha256_2` is the
  double SHA-256);
* `pubSigningKey` — `HDKeychain::getPublicSigningKey i` on the keychain state
  (pubkey, chain code, child number, parent fingerprint, depth);
* `sigsneeded` — `CoinQ::Script::Script::sigsneeded()` on a raw input script:
  how many signatures the script still lacks;
* `serializeTx` — `Coin::Transaction::getSerialized()`;
* `msTxinScript` / `msTxoutScript` — the M-of-N pay-to-script-hash script
  pair built by `CoinQ::Script::Script` from a signature minimum and an
  ordered public key list (`txinscript(EDIT)` and `txoutscript()`). -/
structure Ext where
  masterKey : bytes_t → bytes_t
  masterChainCode : bytes_t → bytes_t
  pubOf : bytes_t → bytes_t
  fp : bytes_t → Nat
  ckdPrivKey : bytes_t → bytes_t → Nat → bytes_t
  ckdPrivChain : bytes_t → bytes_t → Nat → bytes_t
  ckdPubKey : bytes_t → bytes_t → Nat → bytes_t
  ckdPubChain : bytes_t → bytes_t → Nat → bytes_t
  sha256 : bytes_t → bytes_t
  ripemd160 : bytes_t → bytes_t
  sha256d : bytes_t → bytes_t
  pubSigningKey : bytes_t → bytes_t → Nat → Nat → Nat → Nat → bytes_t
  sigsneeded : bytes_t → Nat
  serializeTx : CoinTransaction → bytes_t
  msTxinScript : Nat → List bytes_t → bytes_t
  msTxoutScript : Nat → List bytes_t → bytes_t

/-- `CoinDB::Keychain` state (Schema.hxx 75-165), field for field.  The
`parent_` / `children_` navigation edges and the persistence id are omitted:
they are owned by the persistence collaborator and carry no data used by the
modelled operations (`derivation_path` already records the path from the
root).  A cleared (`locked`) `chain_code` / `privkey` is the empty list,
matching the `empty()` tests of the source. -/
structure Keychain where
  name : String
  depth : Nat
  parent_fp : Nat
  child_num : Nat
  pubkey : bytes_t
  chain_code : bytes_t
  chain_code_ciphertext : bytes_t
  chain_code_salt : bytes_t
  privkey : bytes_t
  privkey_ciphertext : bytes_t
  privkey_salt : bytes_t
  derivation_path : List Nat
  hash : bytes_t
deriving DecidableEq, Inhabited

/-- `Keychain::isPrivate` (Schema.hxx 98): the keychain holds private
material in cleartext or in ciphertext. -/
def Keychain.isPrivate (k : Keychain) : Prop :=
  k.privkey ≠ [] ∨ k.privkey_ciphertext ≠ []

instance (k : Keychain) : Decidable k.isPrivate := by
  unfold Keychain.isPrivate; infer_instance

/-- `Keychain::lockPrivateKey` (Schema.hxx 274-277): clear the cleartext
private key unconditionally. -/
def Keychain.lockPrivateKey (k : Keychain) : Keychain :=
  { k with privkey := [] }

/-- `Keychain::lockChainCode` (Schema.hxx 279-282): clear the cleartext
chain code unconditionally. -/
def Keychain.lockChainCode (k : Keychain) : Keychain :=
  { k with chain_code := [] }

/-- `Keychain::lockAll` (Schema.hxx 284-288). -/
def Keychain.lockAll (k : Keychain) : Keychain :=
  k.lockPrivateKey.lockChainCode

/-- `Keychain::isChainCodeLocked` (Schema.hxx 296-299). -/
def Keychain.isChainCodeLocked (k : Keychain) : Prop :=
  k.chain_code = []

instance (k : Keychain) : Decidable k.isChainCodeLocked := by
  unfold Keychain.isChainCodeLocked; infer_instance

/-- `Keychain::unlockPrivateKey` (Schema.hxx 301-308): fails on a public
keychain, is a no-op when already unlocked, and otherwise restores the
cleartext from the stored ciphertext.  The source marks decryption as
`TODO` and copies the ciphertext verbatim; the `lock_key` argument is
ignored. -/
def Keychain.unlockPrivateKey (k : Keychain) (lock_key : bytes_t) : Except String Keychain :=
  if ¬ k.isPrivate then .error ("Cannot unlock the private key of a public keychain.")
  else if k.privkey ≠ [] then .ok k
  else .ok { k with privkey := k.privkey_ciphertext }

/-- `Keychain::unlockChainCode` (Schema.hxx 310-316): no-op when already
unlocked, otherwise restores the cleartext from the stored ciphertext; the
`lock_key` argument is ignored (decryption is a `TODO` in the source). -/
def Keychain.unlockChainCode (k : Keychain) (lock_key : bytes_t) : Except String Keychain :=
  if k.chain_code ≠ [] then .ok k
  else .ok { k with chain_code := k.chain_code_ciphertext }

/-- `Keychain::setPrivateKeyLockKey` (Schema.hxx 255-263): store the
"ciphertext" (a verbatim copy — encryption is a `TODO` in the source) and the
salt; fails if the keychain is public or the private key is locked. -/
def Keychain.setPrivateKeyLockKey (k : Keychain) (lock_key : bytes_t) (salt : bytes_t) :
    Except String Keychain :=
  if ¬ k.isPrivate then .error ("Cannot lock the private key of a public keychain.")
  else if k.privkey = [] then .error ("Key is locked.")
  else .ok { k with privkey_ciphertext := k.privkey, privkey_salt := salt }

/-- `Keychain::setChainCodeLockKey` (Schema.hxx 265-272). -/
def Keychain.setChainCodeLockKey (k : Keychain) (lock_key : bytes_t) (salt : bytes_t) :
    Except String Keychain :=
  if k.chain_code = [] then .error ("Chain code is locked.")
  else .ok { k with chain_code_ciphertext := k.chain_code, chain_code_salt := salt }

/-- Root keychain construction (Schema.hxx 169-187): validate the name,
derive the BIP32 master node from the entropy (depth 0, parent fingerprint 0,
child number 0, identity hash `ripemd160 (sha256 (pubkey ++ chain_code))` —
the `Coin::HDKeychain` collaborator is modelled from the spec), then set both
lock keys. -/
def Keychain.mkRoot (c : Ext) (name : String) (entropy : bytes_t)
    (lock_key : bytes_t) (salt : bytes_t) : Except String Keychain :=
  if name = "" ∨ name.front = '@' then .error ("Invalid keychain name.")
  else
    let key := c.masterKey entropy
    let cc := c.masterChainCode entropy
    let pub := c.pubOf key
    let k : Keychain :=
      { name := name, depth := 0, parent_fp := 0, child_num := 0
        pubkey := pub
        chain_code := cc, chain_code_ciphertext := [], chain_code_salt := []
        privkey := key, privkey_ciphertext := [], privkey_salt := []
        derivation_path := []
        hash := c.ripemd160 (c.sha256 (pub ++ cc)) }
    match k.setPrivateKeyLockKey lock_key salt with
    | .error e => .error e
    | .ok k => k.setChainCodeLockKey lock_key salt

/-- The private child produced by `Keychain::child` (Schema.hxx 219-236):
all key fields from the derived HD node, `derivation_path` extended by the
index, ciphertext and salt fields default-constructed (empty). -/
def Keychain.childPriv (c : Ext) (k : Keychain) (i : Nat) : Keychain :=
  let key := c.ckdPrivKey k.privkey k.chain_code i
  let cc := c.ckdPrivChain k.privkey k.chain_code i
  let pub := c.pubOf key
  { name := "", depth := k.depth + 1, parent_fp := c.fp k.pubkey, child_num := i
    pubkey := pub
    chain_code := cc, chain_code_ciphertext := [], chain_code_salt := []
    privkey := key, privkey_ciphertext := [], privkey_salt := []
    derivation_path := k.derivation_path ++ [i]
    hash := c.ripemd160 (c.sha256 (pub ++ cc)) }

/-- The public child produced by `Keychain::child` (Schema.hxx 237-252):
like `childPriv` but derived through the public path and with no private
key. -/
def Keychain.childPub (c : Ext) (k : Keychain) (i : Nat) : Keychain :=
  let pub := c.ckdPubKey k.pubkey k.chain_code i
  let cc := c.ckdPubChain k.pubkey k.chain_code i
  { name := "", depth := k.depth + 1, parent_fp := c.fp k.pubkey, child_num := i
    pubkey := pub
    chain_code := cc, chain_code_ciphertext := [], chain_code_salt := []
    privkey := [], privkey_ciphertext := [], privkey_salt := []
    derivation_path := k.derivation_path ++ [i]
    hash := c.ripemd160 (c.sha256 (pub ++ cc)) }

/-- `Keychain::child` (Schema.hxx 215-253): guards in source order, then the
private or public derivation. -/
def Keychain.child (c : Ext) (k : Keychain) (i : Nat) (get_private : Bool) :
    Except String Keychain :=
  if get_private = true ∧ ¬ k.isPrivate then
    .error ("Cannot get private child from public keychain.")
  else if k.chain_code = [] then .error ("Chain code is locked.")
  else if get_private = true then
    if k.privkey = [] then .error ("Private key is locked.")
    else .ok (k.childPriv c i)
  else .ok (k.childPub c i)

/-- `Keychain::operator=` (Schema.hxx 189-213): copy every field except the
name, then recompute `hash = ripemd160 (sha256 (pubkey ++ chain_code))` from
the copied fields. -/
def Keychain.assign (c : Ext) (k source : Keychain) : Keychain :=
  { name := k.name
    depth := source.depth, parent_fp := source.parent_fp, child_num := source.child_num
    pubkey := source.pubkey
    chain_code := source.chain_code
    chain_code_ciphertext := source.chain_code_ciphertext
    chain_code_salt := source.chain_code_salt
    privkey := source.privkey
    privkey_ciphertext := source.privkey_ciphertext
    privkey_salt := source.privkey_salt
    derivation_path := source.derivation_path
    hash := c.ripemd160 (c.sha256 (source.pubkey ++ source.chain_code)) }

/-- `Keychain::getSigningPublicKey` (Schema.hxx 329-336) at the empty
derivation path — the form used by `Key::Key`, the only in-core call site:
fails if the chain code is locked, otherwise asks the HD collaborator for the
public signing key of leaf `i`. -/
def Keychain.getSigningPublicKey (c : Ext) (k : Keychain) (i : Nat) : Except String bytes_t :=
  if k.chain_code = [] then .error ("Chain code is locked.")
  else .ok (c.pubSigningKey k.pubkey k.chain_code k.child_num k.parent_fp k.depth i)

/-- `CoinDB::Key` (Schema.hxx 361-404).  The `root_keychain_` back-reference
and the `is_private_` flag are navigation data resolved through the parent
chain; no modelled operation reads them, so they are omitted. -/
structure Key where
  derivation_path : List Nat
  index : Nat
  pubkey : bytes_t
deriving DecidableEq, Inhabited

/-- `Key::Key` (Schema.hxx 396-404): capture the keychain's derivation path
and resolve the public key immediately via `getSigningPublicKey`. -/
def Key.make (c : Ext) (kc : Keychain) (index : Nat) : Except String Key :=
  match kc.getSigningPublicKey c index with
  | .error e => .error e
  | .ok pk => .ok { derivation_path := kc.derivation_path, index := index, pubkey := pk }

/-- `CoinDB::Account` (Schema.hxx 524-568).  The `KeychainSet`
(`std::set<std::shared_ptr<Keychain>>`) is embedded as the list of its
distinct elements in iteration order; the `bins_` back-reference collection
is navigation data owned by the persistence collaborator and is omitted. -/
structure Account where
  name : String
  minsigs : Nat
  keychains : List Keychain
  unused_pool_size : Nat
  time_created : Nat
deriving DecidableEq, Inhabited

/-- `Account::Account` (Schema.hxx 528-534): the three validation guards in
source order, then the field assignments. -/
def Account.make (name : String) (minsigs : Nat) (keychains : List Keychain)
    (unused_pool_size : Nat) (time_created : Nat) : Except String Account :=
  if name = "" ∨ name.front = '@' then .error ("Invalid account name.")
  else if keychains.length > 15 then .error ("Account can use at most 15 keychains.")
  else if minsigs > keychains.length then
    .error ("Account minimum signatures cannot exceed number of keychains.")
  else .ok { name := name, minsigs := minsigs, keychains := keychains
             unused_pool_size := unused_pool_size, time_created := time_created }

/-- `CoinDB::AccountBin` (Schema.hxx 415-455): owning account, bin index,
name, monotonic script counter and the transient cache of derived
keychains. -/
structure AccountBin where
  account : Account
  index : Nat
  name : String
  script_count : Nat
  keychains : List Keychain
deriving DecidableEq, Inhabited

/-- `AccountBin::AccountBin` (Schema.hxx 597-600): `script_count_` starts at
zero and the keychain cache is empty. -/
def AccountBin.make (account : Account) (index : Nat) (name : String) : AccountBin :=
  { account := account, index := index, name := name, script_count := 0, keychains := [] }

/-- Effectful map over a list, propagating the first error — the embedding
of a C++ loop whose body may `throw`. -/
def mapExcept (f : α → Except ε β) : List α → Except ε (List β)
  | [] => .ok []
  | x :: xs =>
    match f x with
    | .error e => .error e
    | .ok y =>
      match mapExcept f xs with
      | .error e => .error e
      | .ok ys => .ok (y :: ys)

/-- `AccountBin::loadKeychains` (Schema.hxx 602-611): return `false` without
recomputation if the cache is non-empty; otherwise derive, for every account
keychain, the (public) child at the bin's index, cache the results and return
`true`. -/
def AccountBin.loadKeychains (c : Ext) (b : AccountBin) : Except String (Bool × AccountBin) :=
  if b.keychains ≠ [] then .ok (false, b)
  else
    match mapExcept (fun kc => kc.child c b.index false) b.account.keychains with
    | .error e => .error e
    | .ok chs => .ok (true, { b with keychains := chs })

/-- `CoinDB::SigningScript` (Schema.hxx 614-688): owning account and bin,
index within the bin, label, status bitmask, the unsigned input script
placeholder, the output script, and the canonically ordered keys. -/
structure SigningScript where
  account : Account
  account_bin : AccountBin
  index : Nat
  label : String
  status : Nat
  txinscript : bytes_t
  txoutscript : bytes_t
  keys : List Key
deriving DecidableEq, Inhabited

/-- `SigningScript::status_t::UNUSED` (Schema.hxx 618). -/
def SigningScript.UNUSED : Nat := 1
/-- `SigningScript::status_t::CHANGE` (Schema.hxx 618). -/
def SigningScript.CHANGE : Nat := 2
/-- `SigningScript::status_t::PENDING` (Schema.hxx 618). -/
def SigningScript.PENDING : Nat := 4
/-- `SigningScript::status_t::RECEIVED` (Schema.hxx 618). -/
def SigningScript.RECEIVED : Nat := 8
/-- `SigningScript::status_t::CANCELED` (Schema.hxx 618). -/
def SigningScript.CANCELED : Nat := 16
/-- `SigningScript::status_t::ALL` (Schema.hxx 618). -/
def SigningScript.ALL : Nat := 31

/-- `SigningScript::getStatusFlags` (Schema.hxx 632-641): push each set flag
in the fixed order UNUSED, CHANGE, PENDING, RECEIVED, CANCELED. -/
def SigningScript.getStatusFlags (status : Nat) : List Nat :=
  (if status &&& SigningScript.UNUSED ≠ 0 then [SigningScript.UNUSED] else []) ++
  (if status &&& SigningScript.CHANGE ≠ 0 then [SigningScript.CHANGE] else []) ++
  (if status &&& SigningScript.PENDING ≠ 0 then [SigningScript.PENDING] else []) ++
  (if status &&& SigningScript.RECEIVED ≠ 0 then [SigningScript.RECEIVED] else []) ++
  (if status &&& SigningScript.CANCELED ≠ 0 then [SigningScript.CANCELED] else [])

/-- `SigningScript::getStatusString` (Schema.hxx 619-630): the flag names in
the same fixed order, `"UNKNOWN"` when no flag is set, otherwise the names
joined by `" | "` (`stdutils::delimited_list`). -/
def SigningScript.getStatusString (status : Nat) : String :=
  let flags :=
    (if status &&& SigningScript.UNUSED ≠ 0 then ["UNUSED"] else []) ++
    (if status &&& SigningScript.CHANGE ≠ 0 then ["CHANGE"] else []) ++
    (if status &&& SigningScript.PENDING ≠ 0 then ["PENDING"] else []) ++
    (if status &&& SigningScript.RECEIVED ≠ 0 then ["RECEIVED"] else []) ++
    (if status &&& SigningScript.CANCELED ≠ 0 then ["CANCELED"] else [])
  if flags = [] then "UNKNOWN" else String.intercalate (" | ") flags

/-- Lexicographic order on byte strings: the embedding of
`std::vector::operator<` used by the key comparator in the `SigningScript`
constructor (Schema.hxx 701).  `lexLe a b` is `a ≤ b`. -/
def lexLe : bytes_t → bytes_t → Bool
  | [], _ => true
  | _ :: _, [] => false
  | x :: xs, y :: ys => if x < y then true else if y < x then false else lexLe xs ys

/-- The key comparator of the `SigningScript` constructor: order keys by
public key bytes. -/
def keyLe (k₁ k₂ : Key) : Bool := lexLe k₁.pubkey k₂.pubkey

/-- Ordered insertion for the sort below. -/
def insertLe (le : α → α → Bool) (x : α) : List α → List α
  | [] => [x]
  | y :: ys => if le x y then x :: y :: ys else y :: insertLe le x ys

/-- Insertion sort: the embedding of `std::sort` at Schema.hxx 701.  Any
correct sort produces the same key sequence up to ties on the sort key, and
the theorems below only consume the sortedness and permutation properties. -/
def sortLe (le : α → α → Bool) : List α → List α
  | [] => []
  | x :: xs => insertLe le x (sortLe le xs)

/-- `SigningScript::SigningScript` (Schema.hxx 690-708): load the bin's
keychains, build one `Key` per bin keychain at the script index, sort the
keys into canonical order by public key, and build the M-of-N script pair
from the account's `minsigs` and the ordered public keys. -/
def SigningScript.make (c : Ext) (bin : AccountBin) (index : Nat) (label : String)
    (status : Nat) : Except String SigningScript :=
  match bin.loadKeychains c with
  | .error e => .error e
  | .ok (_, bin) =>
    match mapExcept (fun kc => Key.make c kc index) bin.keychains with
    | .error e => .error e
    | .ok ks =>
      let sorted := sortLe keyLe ks
      let pubkeys := sorted.map Key.pubkey
      .ok { account := bin.account, account_bin := bin, index := index
            label := label, status := status
            txinscript := c.msTxinScript bin.account.minsigs pubkeys
            txoutscript := c.msTxoutScript bin.account.minsigs pubkeys
            keys := sorted }

/-- The key the `SigningScript` constructor produces for account keychain
`k` at bin index `bidx` and script index `sidx`: the composition of the
public child derivation performed by `AccountBin::loadKeychains` with the
`Key` constructor.  Used to state the constructor's output in closed
form. -/
def keyOfChild (c : Ext) (bidx sidx : Nat) (k : Keychain) : Key :=
  { derivation_path := (k.childPub c bidx).derivation_path
    index := sidx
    pubkey := c.pubSigningKey (k.childPub c bidx).pubkey (k.childPub c bidx).chain_code
      (k.childPub c bidx).child_num (k.childPub c bidx).parent_fp (k.childPub c bidx).depth sidx }

/-- `CoinDB::TxIn` (Schema.hxx 1008-1052): outpoint, unlocking script,
sequence and position index; the `tx_` back-reference is omitted
(navigation only). -/
structure TxIn where
  outhash : bytes_t
  outindex : Nat
  script : bytes_t
  sequence : Nat
  txindex : Nat
deriving DecidableEq, Inhabited

/-- `CoinDB::TxOut` (Schema.hxx 1088-1148): value, script, position index,
optional account tag and type bitmask; the `tx_` / `spent_` /
`signingscript_` back-references are omitted (navigation only, set by
external tracking logic). -/
structure TxOut where
  value : Nat
  script : bytes_t
  txindex : Nat
  account_id : Option Nat
  type : Nat
deriving DecidableEq, Inhabited

/-- `CoinDB::Tx` (Schema.hxx 1183-1294): the dual hashes, version, owned
input and output lists, locktime, timestamp, status and fee fields.  The
block reference is omitted (confirmation anchoring data with no algorithmic
role in the modelled operations). -/
structure Tx where
  hash : bytes_t
  unsigned_hash : bytes_t
  version : Nat
  txins : List TxIn
  txouts : List TxOut
  locktime : Nat
  timestamp : Nat
  status : Nat
  have_fee : Bool
  fee : Nat
deriving DecidableEq, Inhabited

/-- `Tx::status_t::UNSIGNED` (Schema.hxx 1189). -/
def Tx.UNSIGNED : Nat := 1
/-- `Tx::status_t::UNSENT` (Schema.hxx 1190). -/
def Tx.UNSENT : Nat := 2
/-- `Tx::status_t::SENT` (Schema.hxx 1191). -/
def Tx.SENT : Nat := 4
/-- `Tx::status_t::RECEIVED` (Schema.hxx 1192). -/
def Tx.RECEIVED : Nat := 8
/-- `Tx::status_t::CONFLICTED` (Schema.hxx 1193). -/
def Tx.CONFLICTED : Nat := 16
/-- `Tx::status_t::CANCELED` (Schema.hxx 1194). -/
def Tx.CANCELED : Nat := 32
/-- `Tx::status_t::CONFIRMED` (Schema.hxx 1195). -/
def Tx.CONFIRMED : Nat := 64

/-- `Tx::Tx` (Schema.hxx 1208-1209): both hashes and the input/output lists
are default-constructed empty; `have_fee` is false. -/
def Tx.init (version locktime timestamp status : Nat) : Tx :=
  { hash := [], unsigned_hash := [], version := version, txins := [], txouts := []
    locktime := locktime, timestamp := timestamp, status := status
    have_fee := false, fee := 0 }

/-- `TxIn::toCoinClasses` (Schema.hxx 1073-1080). -/
def TxIn.toCoinClasses (x : TxIn) : CoinTxIn :=
  { outhash := x.outhash, outindex := x.outindex, scriptSig := x.script, sequence := x.sequence }

/-- `TxOut::toCoinClasses` (Schema.hxx 1169-1175). -/
def TxOut.toCoinClasses (o : TxOut) : CoinTxOut :=
  { value := o.value, scriptPubKey := o.script }

/-- `Tx::toCoinClasses` (Schema.hxx 1384-1392). -/
def Tx.toCoinClasses (t : Tx) : CoinTransaction :=
  { version := t.version
    inputs := t.txins.map TxIn.toCoinClasses
    outputs := t.txouts.map TxOut.toCoinClasses
    lockTime := t.locktime }

/-- Modelled from the spec: `Coin::Transaction::clearScriptSigs` — replace
every input's unlocking script with the empty script ("serializes the
transaction with every input's unlocking script cleared"). -/
def CoinTransaction.clearScriptSigs (tx : CoinTransaction) : CoinTransaction :=
  { tx with inputs := tx.inputs.map (fun i => { i with scriptSig := [] }) }

/-- Modelled from the spec: `Coin::Transaction::getHashLittleEndian` — the
double SHA-256 of the serialized transaction, byte-reversed for canonical
display. -/
def CoinTransaction.getHashLittleEndian (c : Ext) (tx : CoinTransaction) : bytes_t :=
  (c.sha256d (c.serializeTx tx)).reverse

/-- `Tx::raw` (Schema.hxx 1414-1417). -/
def Tx.raw (c : Ext) (t : Tx) : bytes_t :=
  c.serializeTx t.toCoinClasses

/-- `Tx::missingSigCount` (Schema.hxx 1458-1470): the maximum over all
inputs of the signatures still needed by that input's script. -/
def Tx.missingSigCount (c : Ext) (t : Tx) : Nat :=
  t.txins.foldl
    (fun count x => if c.sigsneeded x.script > count then c.sigsneeded x.script else count) 0

/-- `Tx::updateStatus` (Schema.hxx 1296-1300): force `UNSIGNED` while
signatures are missing, otherwise leave the status unchanged. -/
def Tx.updateStatus (c : Ext) (t : Tx) : Tx :=
  if t.missingSigCount c > 0 then { t with status := Tx.UNSIGNED } else t

/-- `Tx::updateHash` (Schema.hxx 1302-1309): while status is `UNSIGNED` the
hash is left untouched; otherwise it becomes the byte-reversed double hash
of the fully serialized transaction. -/
def Tx.updateHash (c : Ext) (t : Tx) : Tx :=
  if t.status ≠ Tx.UNSIGNED then { t with hash := (c.sha256d (t.raw c)).reverse } else t

/-- `Tx::updateUnsignedHash` (Schema.hxx 1311-1316): hash the transaction
with all unlocking scripts cleared. -/
def Tx.updateUnsignedHash (c : Ext) (t : Tx) : Tx :=
  { t with unsigned_hash := (t.toCoinClasses.clearScriptSigs).getHashLittleEndian c }

/-- `Tx::status(status_t)` (Schema.hxx 1376-1382): assign the new status
whenever it differs; the `updateHash` call there is commented out in the
source. -/
def Tx.setStatus (t : Tx) (status : Nat) : Tx :=
  if t.status ≠ status then { t with status := status } else t

/-- Position stamping of `Tx::set` (Schema.hxx 1322-1338): each child is
stamped with its 0-based insertion index. -/
def stampTxins (txins : List TxIn) : List TxIn :=
  txins.enum.map (fun p => { p.2 with txindex := p.1 })

/-- Position stamping of the outputs in `Tx::set`. -/
def stampTxouts (txouts : List TxOut) : List TxOut :=
  txouts.enum.map (fun p => { p.2 with txindex := p.1 })

/-- `Tx::set` from components (Schema.hxx 1318-1348): replace the input and
output lists (stamping positions), set the scalar fields, then recompute the
derived fields in the fixed order `updateStatus` → `updateUnsignedHash` →
`updateHash`. -/
def Tx.set (c : Ext) (t : Tx) (version : Nat) (txins : List TxIn) (txouts : List TxOut)
    (locktime : Nat) (timestamp : Nat) (status : Nat) : Tx :=
  let t := { t with version := version, txins := stampTxins txins, txouts := stampTxouts txouts
                    locktime := locktime, timestamp := timestamp, status := status }
  ((t.updateStatus c).updateUnsignedHash c).updateHash c

/-- A concrete instance of the external collaborators, used to evaluate the
embedding on closed inputs.  The functions are simple injective-enough
markers; nothing below depends on cryptographic properties. -/
def cx : Ext :=
  { masterKey := fun e => 1 :: e
    masterChainCode := fun e => 2 :: e
    pubOf := fun k => 3 :: k
    fp := fun _ => 0
    ckdPrivKey := fun k _ i => i :: k
    ckdPrivChain := fun _ cc i => i :: cc
    ckdPubKey := fun p _ i => i :: p
    ckdPubChain := fun _ cc i => i :: cc
    sha256 := fun b => 4 :: b
    ripemd160 := fun b => 5 :: b
    sha256d := fun b => 6 :: b
    pubSigningKey := fun p cc _ _ _ i => i :: (p ++ cc)
    sigsneeded := fun s => s.length
    serializeTx := fun tx =>
      tx.version :: tx.lockTime ::
        ((tx.inputs.map CoinTxIn.scriptSig).flatten ++ (tx.outputs.map CoinTxOut.scriptPubKey).flatten)
    msTxinScript := fun m ps => m :: ps.flatten
    msTxoutScript := fun m ps => 7 :: m :: ps.flatten }

/-- A concrete root keychain built by the constructor under `cx`. -/
def rootKC : Keychain :=
  ((Keychain.mkRoot cx ("a") ([7]) ([9]) ([])).toOption).getD default

/-- A concrete private child of `rootKC`. -/
def childKC : Keychain :=
  ((rootKC.child cx 0 true).toOption).getD default

/-- The invariant documented at Schema.hxx 127: the keychain identity hash
is `ripemd160 (sha256 (pubkey ++ chain_code))` over the current field
values. -/
def keychainHashOk (c : Ext) (k : Keychain) : Prop :=
  k.hash = c.ripemd160 (c.sha256 (k.pubkey ++ k.chain_code))

/-- A concrete account with an empty keychain set (accepted by
`Account::Account`). -/
def acct0 : Account :=
  ((Account.make ("a") 0 [] 25 0).toOption).getD default

/-- A bin of `acct0`. -/
def bin0 : AccountBin := AccountBin.make acct0 1 ("b")

/-- A concrete keychain for the permutation tests. -/
def kcA : Keychain :=
  { name := ("ka"), depth := 0, parent_fp := 0, child_num := 0
    pubkey := [10], chain_code := [1], chain_code_ciphertext := [1], chain_code_salt := []
    privkey := [20], privkey_ciphertext := [20], privkey_salt := []
    derivation_path := [], hash := [] }

/-- A second concrete keychain for the permutation tests. -/
def kcB : Keychain :=
  { name := ("kb"), depth := 0, parent_fp := 0, child_num := 0
    pubkey := [11], chain_code := [1], chain_code_ciphertext := [1], chain_code_salt := []
    privkey := [21], privkey_ciphertext := [21], privkey_salt := []
    derivation_path := [], hash := [] }

/-- A 2-of-2 account listing `kcA` before `kcB`. -/
def acctAB : Account :=
  { name := ("m"), minsigs := 2, keychains := [kcA, kcB], unused_pool_size := 25, time_created := 0 }

/-- The same account with the keychains enumerated in the other order. -/
def acctBA : Account := { acctAB with keychains := [kcB, kcA] }

/-- A bin of `acctAB`. -/
def binAB : AccountBin := AccountBin.make acctAB 1 ("b")

/-- A bin of `acctBA`. -/
def binBA : AccountBin := AccountBin.make acctBA 1 ("b")

/-- A fully signed input under `cx` (`sigsneeded` is the script length, so
the empty script needs no signatures). -/
def txinSigned : TxIn :=
  { outhash := [1], outindex := 0, script := [], sequence := 0, txindex := 0 }

/-- An input still missing a signature under `cx` (non-empty script). -/
def txinUnsigned : TxIn :=
  { outhash := [1], outindex := 0, script := [9], sequence := 0, txindex := 0 }

/-- A transaction fully signed and hashed by a first `set`. -/
def tx1 : Tx := (Tx.init 1 0 0 Tx.RECEIVED).set cx 1 [txinSigned] [] 0 0 Tx.RECEIVED

/-- The same object after a second `set` whose input is missing a
signature. -/
def tx2 : Tx := tx1.set cx 1 [txinUnsigned] [] 0 0 Tx.RECEIVED

/-- A transaction state with one signed input, for the unsigned-hash
invariance witness. -/
def txA : Tx := { Tx.init 1 0 0 Tx.RECEIVED with txins := [txinSigned] }

/-- The same state with the input's unlocking script replaced. -/
def txB : Tx := { txA with txins := [txinUnsigned] }

/-! ### Helper lemmas -/

theorem lexLe_total : ∀ (x y : bytes_t), lexLe x y = true ∨ lexLe y x = true := by
  intro x
  induction x with
  | nil => intro y; left; rfl
  | cons a xs ih =>
    intro y
    cases y with
    | nil => right; rfl
    | cons b ys =>
      rcases Nat.lt_trichotomy a b with h | h | h
      · left; simp [lexLe, h]
      · subst h
        rcases ih ys with hxy | hyx
        · left; simp [lexLe, hxy]
        · right; simp [lexLe, hyx]
      · right; simp [lexLe, h]

theorem lexLe_trans :
    ∀ (x y z : bytes_t), lexLe x y = true → lexLe y z = true → lexLe x z = true := by
  intro x
  induction x with
  | nil => intro y z _ _; rfl
  | cons a xs ih =>
    intro y z hxy hyz
    cases y with
    | nil => simp [lexLe] at hxy
    | cons b ys =>
      cases z with
      | nil => simp [lexLe] at hyz
      | cons c zs =>
        rcases Nat.lt_trichotomy a b with hab | hab | hab
        · rcases Nat.lt_trichotomy b c with hbc | hbc | hbc
          · simp [lexLe, Nat.lt_trans hab hbc]
          · subst hbc; simp [lexLe, hab]
          · simp [lexLe, hbc, Nat.lt_asymm hbc] at hyz
        · subst hab
          rcases Nat.lt_trichotomy a c with hac | hac | hac
          · simp [lexLe, hac]
          · subst hac
            simp only [lexLe, Nat.lt_irrefl, if_false] at hxy hyz ⊢
            exact ih ys zs hxy hyz
          · simp [lexLe, hac, Nat.lt_asymm hac] at hyz
        · simp [lexLe, hab, Nat.lt_asymm hab] at hxy

theorem lexLe_antisymm :
    ∀ (x y : bytes_t), lexLe x y = true → lexLe y x = true → x = y := by
  intro x
  induction x with
  | nil =>
    intro y h1 h2
    cases y with
    | nil => rfl
    | cons b ys => simp [lexLe] at h2
  | cons a xs ih =>
    intro y h1 h2
    cases y with
    | nil => simp [lexLe] at h1
    | cons b ys =>
      rcases Nat.lt_trichotomy a b with hab | hab | hab
      · simp [lexLe, hab, Nat.lt_asymm hab] at h2
      · subst hab
        simp only [lexLe, Nat.lt_irrefl, if_false] at h1 h2
        rw [ih ys h1 h2]
      · simp [lexLe, hab, Nat.lt_asymm hab] at h1

theorem insertLe_perm (le : α → α → Bool) (x : α) :
    ∀ (l : List α), (insertLe le x l).Perm (x :: l) := by
  intro l
  induction l with
  | nil => exact List.Perm.refl _
  | cons y ys ih =>
    simp only [insertLe]
    split
    · exact List.Perm.refl _
    · exact (ih.cons y).trans (List.Perm.swap x y ys)

theorem mem_insertLe {le : α → α → Bool} {x z : α} {l : List α} :
    z ∈ insertLe le x l ↔ z = x ∨ z ∈ l := by
  rw [(insertLe_perm le x l).mem_iff]; simp

theorem insertLe_pairwise (le : α → α → Bool)
    (htotal : ∀ a b, le a b = true ∨ le b a = true)
    (htrans : ∀ a b c, le a b = true → le b c = true → le a c = true)
    (x : α) : ∀ (l : List α), l.Pairwise (fun a b => le a b = true) →
      (insertLe le x l).Pairwise (fun a b => le a b = true) := by
  intro l
  induction l with
  | nil => intro _; simp [insertLe]
  | cons y ys ih =>
    intro h
    rcases List.pairwise_cons.mp h with ⟨hy, hys⟩
    simp only [insertLe]
    split
    case isTrue hle =>
      refine List.pairwise_cons.mpr ⟨?_, h⟩
      intro z hz
      rcases List.mem_cons.mp hz with rfl | hz
      · exact hle
      · exact htrans x y z hle (hy z hz)
    case isFalse hle =>
      refine List.pairwise_cons.mpr ⟨?_, ih hys⟩
      intro z hz
      rcases mem_insertLe.mp hz with rfl | hz
      · rcases htotal z y with hxy | hyx
        · exact absurd hxy hle
        · exact hyx
      · exact hy z hz

theorem sortLe_perm (le : α → α → Bool) : ∀ (l : List α), (sortLe le l).Perm l := by
  intro l
  induction l with
  | nil => exact List.Perm.refl _
  | cons x xs ih => exact (insertLe_perm le x (sortLe le xs)).trans (ih.cons x)

theorem sortLe_pairwise (le : α → α → Bool)
    (htotal : ∀ a b, le a b = true ∨ le b a = true)
    (htrans : ∀ a b c, le a b = true → le b c = true → le a c = true) :
    ∀ (l : List α), (sortLe le l).Pairwise (fun a b => le a b = true) := by
  intro l
  induction l with
  | nil => simp [sortLe]
  | cons x xs ih => exact insertLe_pairwise le htotal htrans x _ ih

theorem sortLe_map_eq_of_perm (f : α → bytes_t) {l₁ l₂ : List α} (hp : l₁.Perm l₂) :
    (sortLe (fun u v => lexLe (f u) (f v)) l₁).map f
      = (sortLe (fun u v => lexLe (f u) (f v)) l₂).map f := by
  have hperm :
      ((sortLe (fun u v => lexLe (f u) (f v)) l₁).map f).Perm
        ((sortLe (fun u v => lexLe (f u) (f v)) l₂).map f) :=
    ((sortLe_perm _ l₁).trans (hp.trans (sortLe_perm _ l₂).symm)).map f
  have hs₁ :
      ((sortLe (fun u v => lexLe (f u) (f v)) l₁).map f).Pairwise
        (fun u v => lexLe u v = true) :=
    (sortLe_pairwise _ (fun a b => lexLe_total (f a) (f b))
      (fun a b c => lexLe_trans (f a) (f b) (f c)) l₁).map f (fun _ _ h => h)
  have hs₂ :
      ((sortLe (fun u v => lexLe (f u) (f v)) l₂).map f).Pairwise
        (fun u v => lexLe u v = true) :=
    (sortLe_pairwise _ (fun a b => lexLe_total (f a) (f b))
      (fun a b c => lexLe_trans (f a) (f b) (f c)) l₂).map f (fun _ _ h => h)
  exact @List.eq_of_perm_of_sorted bytes_t (fun u v => lexLe u v = true)
    ⟨lexLe_antisymm⟩ _ _ hperm hs₁ hs₂

theorem mapExcept_ok {α β : Type} {ε : Type} (f : α → Except ε β) (g : α → β) :
    ∀ (l : List α), (∀ x ∈ l, f x = .ok (g x)) → mapExcept f l = .ok (l.map g) := by
  intro l
  induction l with
  | nil => intro _; rfl
  | cons x xs ih =>
    intro h
    have hx := h x (by simp)
    have hxs := ih (fun y hy => h y (by simp [hy]))
    simp [mapExcept, hx, hxs]

theorem child_ok_of_chain_code (c : Ext) (k : Keychain) (i : Nat) (h : k.chain_code ≠ []) :
    k.child c i false = .ok (k.childPub c i) := by
  unfold Keychain.child
  simp [h]

theorem key_make_ok (c : Ext) (kc : Keychain) (i : Nat) (h : kc.chain_code ≠ []) :
    Key.make c kc i = .ok
      { derivation_path := kc.derivation_path, index := i
        pubkey := c.pubSigningKey kc.pubkey kc.chain_code kc.child_num kc.parent_fp kc.depth i } := by
  unfold Key.make Keychain.getSigningPublicKey
  simp [h]

theorem loadKeychains_ok (c : Ext) (b : AccountBin)
    (hcache : b.keychains = [])
    (hcc : ∀ k ∈ b.account.keychains, k.chain_code ≠ []) :
    AccountBin.loadKeychains c b
      = .ok (true, { b with keychains := b.account.keychains.map (fun k => k.childPub c b.index) }) := by
  have hmap : mapExcept (fun kc => kc.child c b.index false) b.account.keychains
      = .ok (b.account.keychains.map (fun k => k.childPub c b.index)) :=
    mapExcept_ok _ _ _ (fun k hk => child_ok_of_chain_code c k b.index (hcc k hk))
  unfold AccountBin.loadKeychains
  rw [if_neg (by simp [hcache]), hmap]

theorem mkRoot_ok_shape (c : Ext) (name : String) (entropy lock_key salt : bytes_t)
    (k : Keychain) (hk : Keychain.mkRoot c name entropy lock_key salt = .ok k) :
    c.masterKey entropy ≠ [] ∧ c.masterChainCode entropy ≠ [] ∧
    k = { name := name, depth := 0, parent_fp := 0, child_num := 0
          pubkey := c.pubOf (c.masterKey entropy)
          chain_code := c.masterChainCode entropy
          chain_code_ciphertext := c.masterChainCode entropy
          chain_code_salt := salt
          privkey := c.masterKey entropy
          privkey_ciphertext := c.masterKey entropy
          privkey_salt := salt
          derivation_path := []
          hash := c.ripemd160 (c.sha256
            (c.pubOf (c.masterKey entropy) ++ c.masterChainCode entropy)) } := by
  unfold Keychain.mkRoot at hk
  split_ifs at hk
  simp only [Keychain.setPrivateKeyLockKey, Keychain.setChainCodeLockKey,
    Keychain.isPrivate] at hk
  split_ifs at hk with h1 h2
  simp_all
  split_ifs at hk with h3
  simp only [Except.ok.injEq] at hk
  exact ⟨h3, hk.symm⟩

/-! ### Claim C10 -/

/-- C10: the cleartext restored by `unlockPrivateKey` and `unlockChainCode`
does not depend on the `lock_key` argument — for any keychain state and any
two lock keys the resulting states are identical (the source copies the
stored "ciphertext" verbatim; decryption is a `TODO`). -/
theorem c10_unlock_independent_of_lock_key :
    ∀ (k : Keychain) (k₁ k₂ : bytes_t),
      k.unlockPrivateKey k₁ = k.unlockPrivateKey k₂ ∧
      k.unlockChainCode k₁ = k.unlockChainCode k₂ :=
  fun _ _ _ => ⟨rfl, rfl⟩

/-! ### Claim C9 -/

/-- C9 counterexample: for status value `0`, `getStatusString` does return
the explicit `"UNKNOWN"` marker, but `getStatusFlags` returns the empty
list — not an explicit "unknown" marker — contradicting the claim that
*each* of the two decoders returns an unknown marker rather than an empty
result. -/
theorem c9_counterexample :
    SigningScript.getStatusFlags 0 = [] ∧ SigningScript.getStatusString 0 = "UNKNOWN" :=
  ⟨rfl, rfl⟩

/-- C9 amended: both decoders list the set flags in the fixed order UNUSED,
CHANGE, PENDING, RECEIVED, CANCELED — `getStatusFlags` as the ordered
sublist of flag values, `getStatusString` as the corresponding flag names
joined by `" | "` in the same order; for a value with none of the five
bits set, `getStatusString` returns the explicit `"UNKNOWN"` marker (and
only then) while `getStatusFlags` returns the empty list. -/
theorem c9_status_decoding (status : Nat) :
    SigningScript.getStatusFlags status =
      [SigningScript.UNUSED, SigningScript.CHANGE, SigningScript.PENDING,
        SigningScript.RECEIVED, SigningScript.CANCELED].filter
          (fun f => decide (status &&& f ≠ 0)) ∧
    SigningScript.getStatusString status =
      (if (([(SigningScript.UNUSED, "UNUSED"), (SigningScript.CHANGE, "CHANGE"),
             (SigningScript.PENDING, "PENDING"), (SigningScript.RECEIVED, "RECEIVED"),
             (SigningScript.CANCELED, "CANCELED")].filter
               (fun p => decide (status &&& p.1 ≠ 0))).map Prod.snd) = []
       then "UNKNOWN"
       else String.intercalate (" | ")
        (([(SigningScript.UNUSED, "UNUSED"), (SigningScript.CHANGE, "CHANGE"),
           (SigningScript.PENDING, "PENDING"), (SigningScript.RECEIVED, "RECEIVED"),
           (SigningScript.CANCELED, "CANCELED")].filter
             (fun p => decide (status &&& p.1 ≠ 0))).map Prod.snd)) ∧
    (SigningScript.getStatusString status = "UNKNOWN" ↔
      SigningScript.getStatusFlags status = []) := by
  have hnames :
      ((if status &&& SigningScript.UNUSED ≠ 0 then ["UNUSED"] else []) ++
        (if status &&& SigningScript.CHANGE ≠ 0 then ["CHANGE"] else []) ++
        (if status &&& SigningScript.PENDING ≠ 0 then ["PENDING"] else []) ++
        (if status &&& SigningScript.RECEIVED ≠ 0 then ["RECEIVED"] else []) ++
        (if status &&& SigningScript.CANCELED ≠ 0 then ["CANCELED"] else []))
      = ([(SigningScript.UNUSED, "UNUSED"), (SigningScript.CHANGE, "CHANGE"),
          (SigningScript.PENDING, "PENDING"), (SigningScript.RECEIVED, "RECEIVED"),
          (SigningScript.CANCELED, "CANCELED")].filter
            (fun p => decide (status &&& p.1 ≠ 0))).map Prod.snd := by
    simp only [List.filter_cons, List.filter_nil, decide_eq_true_eq,
      List.map_cons, List.map_nil]
    split_ifs <;> rfl
  refine ⟨?_, ?_, ?_⟩
  · unfold SigningScript.getStatusFlags
    simp only [List.filter_cons, List.filter_nil, decide_eq_true_eq]
    split_ifs <;> rfl
  · unfold SigningScript.getStatusString
    dsimp only
    rw [hnames]
  · unfold SigningScript.getStatusString SigningScript.getStatusFlags
    split_ifs <;> simp_all <;> decide

/-! ### Claim C7 -/

/-- C7 counterexample: starting from a transaction whose status is
`RECEIVED` (not `CONFIRMED`), the status setter moves the status to the
strictly smaller constant `UNSENT` — a regression that is not a transition
out of `CONFIRMED`, contradicting the claimed monotonicity. -/
theorem c7_counterexample :
    (Tx.init 1 0 0 Tx.RECEIVED).status = Tx.RECEIVED ∧
    ((Tx.init 1 0 0 Tx.RECEIVED).setStatus Tx.UNSENT).status = Tx.UNSENT ∧
    Tx.UNSENT < Tx.RECEIVED ∧
    Tx.RECEIVED ≠ Tx.CONFIRMED := by
  refine ⟨rfl, ?_, by decide, by decide⟩
  decide

/-- C7 amended: the core enforces no ordering on status transitions — the
setter assigns exactly the requested value from any starting status, and
the only transition the core itself forces is `updateStatus` moving the
status to `UNSIGNED` while signatures are missing. -/
theorem c7_no_monotonicity_enforcement (c : Ext) (t : Tx) (s : Nat) :
    (t.setStatus s).status = s ∧
    (t.updateStatus c).status =
      (if t.missingSigCount c > 0 then Tx.UNSIGNED else t.status) := by
  constructor
  · unfold Tx.setStatus
    split_ifs with h
    · rfl
    · simpa using h
  · unfold Tx.updateStatus
    split_ifs <;> rfl

/-! ### Claim C5 -/

/-- C5 counterexample: constructing an account with an *empty* keychain set
(size 0, outside the claimed 1–15 bound) and `minsigs = 0` succeeds — the
source only rejects more than 15 keychains and `minsigs` exceeding the
count, so the claimed "keychain set size is outside 1–15" failure condition
is wrong for size 0. -/
theorem c5_counterexample :
    Account.make ("a") 0 [] 25 0 =
      .ok { name := ("a"), minsigs := 0, keychains := []
            unused_pool_size := 25, time_created := 0 } :=
  rfl

/-- C5 amended: account construction fails exactly when the name is empty
or starts with `'@'`, or the keychain count exceeds 15, or `minsigs`
exceeds the keychain count (an empty keychain set with `minsigs = 0` is
accepted); on success every field equals the corresponding argument. -/
theorem c5_account_validation (name : String) (minsigs : Nat)
    (keychains : List Keychain) (pool t : Nat) :
    ((∃ e, Account.make name minsigs keychains pool t = .error e) ↔
      (name = "" ∨ name.front = '@' ∨ keychains.length > 15 ∨
        minsigs > keychains.length)) ∧
    (∀ a, Account.make name minsigs keychains pool t = .ok a →
      a.name = name ∧ a.minsigs = minsigs ∧ a.keychains = keychains ∧
        a.unused_pool_size = pool ∧ a.time_created = t) := by
  unfold Account.make
  constructor
  · constructor
    · rintro ⟨e, he⟩
      split_ifs at he with h1 h2 h3
      · tauto
      · tauto
      · tauto
    · intro h
      split_ifs with h1 h2 h3
      · exact ⟨_, rfl⟩
      · exact ⟨_, rfl⟩
      · exact ⟨_, rfl⟩
      · rcases h with h | h | h | h
        · exact absurd (Or.inl h) h1
        · exact absurd (Or.inr h) h1
        · exact absurd h h2
        · exact absurd h h3
  · intro a ha
    split_ifs at ha
    simp only [Except.ok.injEq] at ha
    cases ha
    exact ⟨rfl, rfl, rfl, rfl, rfl⟩

/-- C5 witness: the amended theorem applied to the concrete empty-keychain
construction. -/
theorem c5_witness :
    acct0.name = ("a") ∧ acct0.minsigs = 0 ∧ acct0.keychains = [] := by
  obtain ⟨h1, h2, h3, _, _⟩ :=
    (c5_account_validation ("a") 0 [] 25 0).2 acct0 (by rfl)
  exact ⟨h1, h2, h3⟩

/-! ### Claim C1 -/

/-- C1 counterexample: `childKC` is a keychain derived via `child()` whose
private key and chain code are both present, yet after `lockAll` the
unlock sequence does not restore them: `unlockPrivateKey` fails (the child
was created with empty ciphertext fields, so the locked child no longer
counts as private), and `unlockChainCode` "restores" the empty chain code
instead of the original one. -/
theorem c1_counterexample :
    childKC.privkey ≠ [] ∧ childKC.chain_code ≠ [] ∧
    childKC.lockAll.unlockPrivateKey [9] =
      .error ("Cannot unlock the private key of a public keychain.") ∧
    childKC.lockAll.unlockChainCode [9] = .ok childKC.lockAll ∧
    childKC.lockAll.chain_code = [] :=
  ⟨by decide, by decide, rfl, rfl, rfl⟩

/-- C1 amended: the `lockAll`-then-unlock round trip restores the exact
private key and chain code for every keychain whose ciphertext fields are
in sync with its cleartext fields and whose private key is present — the
state established by `setPrivateKeyLockKey` / `setChainCodeLockKey`, and in
particular (second conjunct) the state of every root keychain produced by
the constructor.  Keychains produced by `child()` have empty ciphertexts
and are excluded (see the counterexample). -/
theorem c1_roundtrip_after_lock_keys_set :
    (∀ (k : Keychain) (key : bytes_t),
      k.privkey_ciphertext = k.privkey →
      k.chain_code_ciphertext = k.chain_code →
      k.privkey ≠ [] →
      ∃ k', (k.lockAll.unlockPrivateKey key).bind (fun x => x.unlockChainCode key) = .ok k' ∧
        k'.privkey = k.privkey ∧ k'.chain_code = k.chain_code) ∧
    (∀ (c : Ext) (name : String) (entropy lock_key salt : bytes_t) (k : Keychain),
      Keychain.mkRoot c name entropy lock_key salt = .ok k →
      k.privkey_ciphertext = k.privkey ∧ k.chain_code_ciphertext = k.chain_code ∧
        k.privkey ≠ []) := by
  constructor
  · intro k key hp hc hpk
    have hcpt : k.privkey_ciphertext ≠ [] := by rw [hp]; exact hpk
    have hpriv : (k.lockAll).isPrivate := Or.inr hcpt
    have h₁ : k.lockAll.unlockPrivateKey key
        = .ok { k with privkey := k.privkey_ciphertext, chain_code := [] } := by
      unfold Keychain.unlockPrivateKey
      rw [if_neg (fun hcon => hcon hpriv),
        if_neg (by simp [Keychain.lockAll, Keychain.lockPrivateKey, Keychain.lockChainCode])]
      rfl
    have h₂ : ({ k with privkey := k.privkey_ciphertext, chain_code := [] } :
          Keychain).unlockChainCode key
        = .ok { k with privkey := k.privkey_ciphertext
                       chain_code := k.chain_code_ciphertext } := by
      unfold Keychain.unlockChainCode
      rw [if_neg (by simp)]
    refine ⟨{ k with privkey := k.privkey_ciphertext
                     chain_code := k.chain_code_ciphertext }, ?_, hp, hc⟩
    rw [h₁]
    exact h₂
  · intro c name entropy lock_key salt k hk
    obtain ⟨hkey, -, rfl⟩ := mkRoot_ok_shape c name entropy lock_key salt k hk
    exact ⟨rfl, rfl, hkey⟩

/-- C1 witness: the amended round trip applied to the concrete root
keychain `rootKC`. -/
theorem c1_witness :
    ∃ k', (rootKC.lockAll.unlockPrivateKey [9]).bind
        (fun x => x.unlockChainCode [9]) = .ok k' ∧
      k'.privkey = rootKC.privkey ∧ k'.chain_code = rootKC.chain_code :=
  c1_roundtrip_after_lock_keys_set.1 rootKC [9] (by decide) (by decide) (by decide)

/-! ### Claim C6 -/

/-- C6: every keychain produced by root construction, by `child()` (either
path), or by copy assignment satisfies the documented invariant
`hash = ripemd160 (sha256 (pubkey ++ chain_code))` over its current pubkey
and (unlocked) chain code fields — the hash is recomputed from the new
field values by each of these operations. -/
theorem c6_hash_invariant (c : Ext) :
    (∀ (name : String) (entropy lock_key salt : bytes_t) (k : Keychain),
      Keychain.mkRoot c name entropy lock_key salt = .ok k → keychainHashOk c k) ∧
    (∀ (k : Keychain) (i : Nat) (g : Bool) (k' : Keychain),
      k.child c i g = .ok k' → keychainHashOk c k') ∧
    (∀ (k source : Keychain), keychainHashOk c (k.assign c source)) := by
  refine ⟨?_, ?_, ?_⟩
  · intro name entropy lock_key salt k hk
    obtain ⟨-, -, rfl⟩ := mkRoot_ok_shape c name entropy lock_key salt k hk
    rfl
  · intro k i g k' hk
    unfold Keychain.child at hk
    split_ifs at hk <;> simp only [Except.ok.injEq] at hk <;> subst hk <;> rfl
  · intro k source
    rfl

/-- C6 witness: the invariant holds of the concrete root keychain
`rootKC`. -/
theorem c6_witness : keychainHashOk cx rootKC :=
  (c6_hash_invariant cx).1 ("a") [7] [9] [] rootKC rfl

/-! ### Claim C2 -/

theorem map_clear_eq_of_proj {l₁ l₂ : List TxIn}
    (h : l₂.map (fun x => (x.outhash, x.outindex, x.sequence)) =
      l₁.map (fun x => (x.outhash, x.outindex, x.sequence))) :
    (l₂.map TxIn.toCoinClasses).map (fun i => { i with scriptSig := ([] : bytes_t) }) =
    (l₁.map TxIn.toCoinClasses).map (fun i => { i with scriptSig := ([] : bytes_t) }) := by
  have e : ∀ (l : List TxIn),
      (l.map TxIn.toCoinClasses).map (fun i => { i with scriptSig := ([] : bytes_t) })
        = (l.map (fun x => (x.outhash, x.outindex, x.sequence))).map
            (fun p => { outhash := p.1, outindex := p.2.1
                        scriptSig := [], sequence := p.2.2 }) := by
    intro l
    rw [List.map_map, List.map_map]
    rfl
  rw [e, e, h]

theorem map_out_eq_of_proj {l₁ l₂ : List TxOut}
    (h : l₂.map (fun o => (o.value, o.script)) = l₁.map (fun o => (o.value, o.script))) :
    l₂.map TxOut.toCoinClasses = l₁.map TxOut.toCoinClasses := by
  have e : ∀ (l : List TxOut),
      l.map TxOut.toCoinClasses
        = (l.map (fun o => (o.value, o.script))).map
            (fun p => { value := p.1, scriptPubKey := p.2 }) := by
    intro l
    rw [List.map_map]
    rfl
  rw [e, e, h]

/-- C2: the value stored by `updateUnsignedHash` is invariant under
replacing the unlocking scripts of any subset of the inputs: two
transactions that agree on version, locktime, outputs and the
script-independent projection of every input (outpoint and sequence, in
order) receive equal `unsigned_hash`, whatever their input scripts are. -/
theorem c2_unsigned_hash_script_invariance (c : Ext) (t₁ t₂ : Tx)
    (hv : t₂.version = t₁.version)
    (hl : t₂.locktime = t₁.locktime)
    (ho : t₂.txouts.map (fun o => (o.value, o.script)) =
      t₁.txouts.map (fun o => (o.value, o.script)))
    (hi : t₂.txins.map (fun x => (x.outhash, x.outindex, x.sequence)) =
      t₁.txins.map (fun x => (x.outhash, x.outindex, x.sequence))) :
    (t₂.updateUnsignedHash c).unsigned_hash = (t₁.updateUnsignedHash c).unsigned_hash := by
  have hcleared : t₂.toCoinClasses.clearScriptSigs = t₁.toCoinClasses.clearScriptSigs := by
    show ({ version := t₂.version
            inputs := (t₂.txins.map TxIn.toCoinClasses).map
              (fun i => { i with scriptSig := ([] : bytes_t) })
            outputs := t₂.txouts.map TxOut.toCoinClasses
            lockTime := t₂.locktime } : CoinTransaction)
        = { version := t₁.version
            inputs := (t₁.txins.map TxIn.toCoinClasses).map
              (fun i => { i with scriptSig := ([] : bytes_t) })
            outputs := t₁.txouts.map TxOut.toCoinClasses
            lockTime := t₁.locktime }
    rw [hv, hl, map_clear_eq_of_proj hi, map_out_eq_of_proj ho]
  show (t₂.toCoinClasses.clearScriptSigs.getHashLittleEndian c)
      = (t₁.toCoinClasses.clearScriptSigs.getHashLittleEndian c)
  rw [hcleared]

/-- C2 witness: the invariance applied to two concrete transactions that
differ exactly in one input's unlocking script. -/
theorem c2_witness :
    (txB.updateUnsignedHash cx).unsigned_hash = (txA.updateUnsignedHash cx).unsigned_hash :=
  c2_unsigned_hash_script_invariance cx txA txB rfl rfl rfl rfl

/-! ### Claim C3 -/

/-- C3 counterexample: the hash/status invariant is violated by a second
`set` on the same object.  `tx2` is obtained by first calling `set` with a
fully signed input (which stores a non-empty hash) and then calling `set`
again with an input that is missing a signature: the status is forced to
`UNSIGNED`, but the stale hash from the first call is never cleared, so the
hash is non-empty while the status is `UNSIGNED` and `missingSigCount` is
positive. -/
theorem c3_counterexample :
    tx2.status = Tx.UNSIGNED ∧ tx2.hash ≠ [] ∧ tx2.missingSigCount cx > 0 ∧
    tx2.hash = tx1.hash := by
  refine ⟨by decide, by decide, by decide, by decide⟩

/-- C3 amended: on a transaction whose hash is still empty (as after the
constructor), a single `set` maintains the claimed invariant — if the
resulting status is `UNSIGNED` the hash is empty, and the hash is non-empty
only if no signature is missing.  The restriction to an empty starting hash
is forced by the counterexample: `set` never clears a previously computed
hash. -/
theorem c3_hash_empty_after_single_set (c : Ext) (t : Tx) (h : t.hash = [])
    (version : Nat) (txins : List TxIn) (txouts : List TxOut)
    (locktime timestamp status : Nat) :
    ((t.set c version txins txouts locktime timestamp status).status = Tx.UNSIGNED →
      (t.set c version txins txouts locktime timestamp status).hash = []) ∧
    ((t.set c version txins txouts locktime timestamp status).hash ≠ [] →
      (t.set c version txins txouts locktime timestamp status).missingSigCount c = 0) := by
  unfold Tx.set Tx.updateStatus Tx.updateUnsignedHash Tx.updateHash
  dsimp only
  split_ifs with h1 h2
  all_goals constructor
  all_goals intro hcond
  all_goals simp_all [Tx.missingSigCount]

/-- C3 witness: the amended invariant applied to a fresh transaction with
one fully signed input. -/
theorem c3_witness :
    (((Tx.init 1 0 0 Tx.RECEIVED).set cx 1 [txinSigned] [] 0 0 Tx.RECEIVED).status
        = Tx.UNSIGNED →
      ((Tx.init 1 0 0 Tx.RECEIVED).set cx 1 [txinSigned] [] 0 0 Tx.RECEIVED).hash = []) ∧
    (((Tx.init 1 0 0 Tx.RECEIVED).set cx 1 [txinSigned] [] 0 0 Tx.RECEIVED).hash ≠ [] →
      ((Tx.init 1 0 0 Tx.RECEIVED).set cx 1 [txinSigned] [] 0 0
          Tx.RECEIVED).missingSigCount cx = 0) :=
  c3_hash_empty_after_single_set cx (Tx.init 1 0 0 Tx.RECEIVED) rfl 1 [txinSigned] [] 0 0
    Tx.RECEIVED

/-! ### Claim C8 -/

/-- C8 counterexample: for a bin whose account has no keychains (such an
account is accepted by the constructor), `loadKeychains` leaves the cache
empty and returns `true`; because the resulting state equals the starting
state, every subsequent call also recomputes and returns `true`, never
`false` — contradicting the claim that every subsequent call returns
`false`. -/
theorem c8_counterexample :
    bin0.account.keychains = [] ∧ bin0.keychains = [] ∧
    AccountBin.loadKeychains cx bin0 = .ok (true, bin0) :=
  ⟨rfl, rfl, rfl⟩

/-- C8 amended: for a bin with an empty cache over an account with at least
one keychain (all derivable), the first `loadKeychains` derives the child of
every account keychain at the bin's index, caches that non-empty set and
returns `true`; any further call on the resulting state returns `false`
without recomputation and leaves the cache unchanged. -/
theorem c8_load_keychains_idempotent (c : Ext) (b : AccountBin)
    (hcache : b.keychains = [])
    (hne : b.account.keychains ≠ [])
    (hcc : ∀ k ∈ b.account.keychains, k.chain_code ≠ []) :
    ∃ b', AccountBin.loadKeychains c b = .ok (true, b') ∧
      b'.keychains = b.account.keychains.map (fun k => k.childPub c b.index) ∧
      b'.keychains ≠ [] ∧
      AccountBin.loadKeychains c b' = .ok (false, b') := by
  refine ⟨{ b with keychains := b.account.keychains.map (fun k => k.childPub c b.index) },
    loadKeychains_ok c b hcache hcc, rfl, ?_, ?_⟩
  · simpa using hne
  · unfold AccountBin.loadKeychains
    rw [if_pos (by simpa using hne)]

/-- C8 witness: the amended idempotence applied to a concrete two-keychain
account bin. -/
theorem c8_witness :
    ∃ b', AccountBin.loadKeychains cx binAB = .ok (true, b') ∧
      b'.keychains = binAB.account.keychains.map (fun k => k.childPub cx binAB.index) ∧
      b'.keychains ≠ [] ∧
      AccountBin.loadKeychains cx b' = .ok (false, b') :=
  c8_load_keychains_idempotent cx binAB rfl (by decide) (by decide)

/-! ### Claim C4 -/

theorem signingScript_make_ok (c : Ext) (a : Account) (bidx sidx cnt : Nat)
    (bname label : String) (st : Nat)
    (hcc : ∀ k ∈ a.keychains, k.chain_code ≠ [])
    (hccc : ∀ k ∈ a.keychains, c.ckdPubChain k.pubkey k.chain_code bidx ≠ []) :
    SigningScript.make c
      { account := a, index := bidx, name := bname, script_count := cnt, keychains := [] }
      sidx label st
      = .ok
      { account := a
        account_bin := { account := a, index := bidx, name := bname, script_count := cnt
                         keychains := a.keychains.map (fun k => k.childPub c bidx) }
        index := sidx, label := label, status := st
        txinscript := c.msTxinScript a.minsigs
          ((sortLe keyLe (a.keychains.map (keyOfChild c bidx sidx))).map Key.pubkey)
        txoutscript := c.msTxoutScript a.minsigs
          ((sortLe keyLe (a.keychains.map (keyOfChild c bidx sidx))).map Key.pubkey)
        keys := sortLe keyLe (a.keychains.map (keyOfChild c bidx sidx)) } := by
  have hload := loadKeychains_ok c
    { account := a, index := bidx, name := bname, script_count := cnt, keychains := [] }
    rfl hcc
  have hkeys : mapExcept (fun kc => Key.make c kc sidx)
      (a.keychains.map (fun k => k.childPub c bidx))
      = .ok (a.keychains.map (keyOfChild c bidx sidx)) := by
    have hpt : ∀ y ∈ a.keychains.map (fun k => k.childPub c bidx),
        Key.make c y sidx = .ok
          { derivation_path := y.derivation_path, index := sidx
            pubkey := c.pubSigningKey y.pubkey y.chain_code y.child_num y.parent_fp
              y.depth sidx } := by
      intro y hy
      obtain ⟨k, hk, rfl⟩ := List.mem_map.mp hy
      exact key_make_ok c _ sidx (hccc k hk)
    have := mapExcept_ok (fun kc => Key.make c kc sidx)
      (fun kc => { derivation_path := kc.derivation_path, index := sidx
                   pubkey := c.pubSigningKey kc.pubkey kc.chain_code kc.child_num
                     kc.parent_fp kc.depth sidx })
      (a.keychains.map (fun k => k.childPub c bidx)) hpt
    rw [this, List.map_map]
    rfl
  unfold SigningScript.make
  rw [hload]
  dsimp only
  rw [hkeys]

/-- C4: for a fixed keychain set, fixed `minsigs`, fixed bin index and
fixed script index, the script pair produced by `SigningScript`
construction is the same whatever order the account enumerates its
keychains in: the constructor sorts the derived keys by public key bytes
before building the M-of-N script pair, so any permutation of the keychain
list yields identical `txinscript` and `txoutscript`. -/
theorem c4_script_permutation_invariance (c : Ext) (a₁ a₂ : Account)
    (bidx sidx : Nat) (bname : String) (cnt₁ cnt₂ : Nat) (label : String) (st : Nat)
    (hperm : a₁.keychains.Perm a₂.keychains)
    (hmin : a₁.minsigs = a₂.minsigs)
    (hcc : ∀ k ∈ a₁.keychains, k.chain_code ≠ [])
    (hccc : ∀ k ∈ a₁.keychains, c.ckdPubChain k.pubkey k.chain_code bidx ≠ []) :
    ∃ s₁ s₂,
      SigningScript.make c
        { account := a₁, index := bidx, name := bname, script_count := cnt₁, keychains := [] }
        sidx label st = .ok s₁ ∧
      SigningScript.make c
        { account := a₂, index := bidx, name := bname, script_count := cnt₂, keychains := [] }
        sidx label st = .ok s₂ ∧
      s₁.txinscript = s₂.txinscript ∧ s₁.txoutscript = s₂.txoutscript := by
  have hcc₂ : ∀ k ∈ a₂.keychains, k.chain_code ≠ [] :=
    fun k hk => hcc k (hperm.mem_iff.mpr hk)
  have hccc₂ : ∀ k ∈ a₂.keychains, c.ckdPubChain k.pubkey k.chain_code bidx ≠ [] :=
    fun k hk => hccc k (hperm.mem_iff.mpr hk)
  have hpub : (sortLe keyLe (a₁.keychains.map (keyOfChild c bidx sidx))).map Key.pubkey
      = (sortLe keyLe (a₂.keychains.map (keyOfChild c bidx sidx))).map Key.pubkey :=
    sortLe_map_eq_of_perm Key.pubkey (hperm.map (keyOfChild c bidx sidx))
  refine ⟨_, _, signingScript_make_ok c a₁ bidx sidx cnt₁ bname label st hcc hccc,
    signingScript_make_ok c a₂ bidx sidx cnt₂ bname label st hcc₂ hccc₂, ?_, ?_⟩
  · show c.msTxinScript a₁.minsigs _ = c.msTxinScript a₂.minsigs _
    rw [hmin, hpub]
  · show c.msTxoutScript a₁.minsigs _ = c.msTxoutScript a₂.minsigs _
    rw [hmin, hpub]

/-- C4 witness: the permutation invariance applied to the concrete 2-of-2
account enumerated in both orders. -/
theorem c4_witness :
    ∃ s₁ s₂,
      SigningScript.make cx binAB 0 ("") SigningScript.UNUSED = .ok s₁ ∧
      SigningScript.make cx binBA 0 ("") SigningScript.UNUSED = .ok s₂ ∧
      s₁.txinscript = s₂.txinscript ∧ s₁.txoutscript = s₂.txoutscript :=
  c4_script_permutation_invariance cx acctAB acctBA 1 0 ("b") 0 0 ("")
    SigningScript.UNUSED (List.Perm.swap kcB kcA []) rfl (by decide) (by decide)

end CoinDB
